import Mathlib

set_option autoImplicit false

/-!
Verification development for the tonutils client library.

This file gives a shallow embedding of the transaction-trace
reconstruction engine (`tonutils/client/models.py`) and of the NFT
batch-mint message builders
(`tonutils/nft/contract/standard/collection.py`,
`tonutils/nft/contract/soulbound/collection.py`), and proves the
stated properties about them.

Conventions of the embedding:
  * Python `Optional[T]` becomes `Option T`; an absent JSON key and a
    JSON `null` are both modelled as `none`.
  * Python truthiness of an optional string (`if s:` is false for both
    `None` and `""`) is modelled by `optStrTruthy`.
  * Machine integers are `Int`/`Nat` (no overflow is relevant here).
  * Code that raises becomes `Except String`.
-/

/-- Python truthiness of an `Optional[str]`: `None` and `""` are falsy. -/
def optStrTruthy : Option String → Bool
  | none => false
  | some s => !s.isEmpty

/-- Character-wise embedding of Python `s.lower().replace(" ", "_")`:
lowercasing is per character and the replaced pattern is the single
character of a space, so the composition is a character map. -/
def normalizeChar (c : Char) : Char :=
  if c = ' ' then '_' else c.toLower

/-- Embeds `skip_reason.lower().replace(" ", "_")` from
`tonutils/client/models.py`. -/
def normalizeReason (s : String) : String :=
  String.mk (s.data.map normalizeChar)

/-- The fixed exit-code table `ExitCode._code_map` of
`tonutils/client/models.py` (a Python dict with distinct keys,
in source order). -/
def ExitCode.code_map : List (Int × String) :=
  [ (0, "standard_successful_execution"),
    (1, "alternative_successful_execution_reserved"),
    (2, "stack_underflow"),
    (3, "stack_overflow"),
    (4, "integer_overflow"),
    (5, "range_check_error"),
    (6, "invalid_tvm_opcode"),
    (7, "type_check_error"),
    (8, "cell_overflow"),
    (9, "cell_underflow"),
    (10, "dictionary_error"),
    (11, "unknown_error"),
    (12, "fatal_error"),
    (13, "out_of_gas"),
    (-14, "out_of_gas"),
    (14, "vm_virtualization_error"),
    (32, "action_list_invalid"),
    (33, "action_list_too_long"),
    (34, "action_invalid_or_not_supported"),
    (35, "invalid_source_address"),
    (36, "invalid_destination_address"),
    (37, "not_enough_toncoin"),
    (38, "not_enough_extra_currencies"),
    (39, "outbound_message_does_not_fit"),
    (40, "cannot_process_message"),
    (41, "library_reference_null"),
    (42, "library_change_error"),
    (43, "exceeded_max_cells_or_depth"),
    (50, "account_state_size_exceeded"),
    (128, "null_reference_exception"),
    (129, "invalid_serialization_prefix"),
    (130, "invalid_incoming_message"),
    (131, "constraints_error"),
    (132, "access_denied"),
    (133, "contract_stopped"),
    (134, "invalid_argument"),
    (135, "contract_code_not_found"),
    (136, "invalid_standard_address"),
    (137, "masterchain_support_not_enabled"),
    (138, "not_a_basechain_address") ]

/-- `ExitCode.translate` of `tonutils/client/models.py`: `None` maps to
`None`, a known code to its tag, any other code to
`"unknown_exit_code_<code>"`. -/
def ExitCode.translate : Option Int → Option String
  | none => none
  | some code =>
      some ((ExitCode.code_map.lookup code).getD
        ("unknown_exit_code_" ++ toString code))

/-- `PhaseResult` of `tonutils/client/models.py`. -/
structure PhaseResult where
  success : Bool
  skipped : Bool
  skip_reason : Option String
  exit_code : Option Int

/-- The `PhaseResult.error` property of `tonutils/client/models.py`. -/
def PhaseResult.error (p : PhaseResult) : Option String :=
  if p.skipped && optStrTruthy p.skip_reason then
    some (normalizeReason (p.skip_reason.getD ""))
  else if !p.success && p.exit_code.isSome then
    ExitCode.translate p.exit_code
  else none

/-- Raw backend JSON for one execution phase, as read by `parse_phase`
inside `Transaction.from_ton_api_trace`.  A field is `none`/`false`
when the corresponding key is absent (the Python code uses
`phase.get(key, default)`); `has_exit_code` records whether the
`"exit_code"` key itself is present, since the code distinguishes
presence from value (`if "exit_code" in phase`). -/
structure PhaseData where
  success : Bool
  skipped : Bool
  skip_reason : Option String
  has_exit_code : Bool
  exit_code : Option Int
  result_code : Option Int

/-- The inner `parse_phase` of `Transaction.from_ton_api_trace`.
`none` models a missing, `null` or empty phase object (all falsy in
Python). -/
def parse_phase : Option PhaseData → PhaseResult
  | none => ⟨false, true, some "missing_phase_info", none⟩
  | some p =>
      if p.skipped then
        ⟨false, true, some (p.skip_reason.getD "skipped"), none⟩
      else
        ⟨p.success, false, none,
          if p.has_exit_code then p.exit_code else p.result_code⟩

/-- The in-line error derivation of `Transaction.from_ton_api_trace`
(models.py lines 152-167): skipped compute phase yields the normalized
skip reason when that reason is truthy and `"compute_phase_skipped"`
otherwise; else a failed compute phase yields its translated exit
code; else a failed action phase yields its translated exit code. -/
def derive_error (compute_phase action_phase : PhaseResult) : Option String :=
  if compute_phase.skipped then
    some (if optStrTruthy compute_phase.skip_reason then
            normalizeReason (compute_phase.skip_reason.getD "")
          else "compute_phase_skipped")
  else if !compute_phase.success then
    ExitCode.translate compute_phase.exit_code
  else if !action_phase.success then
    ExitCode.translate action_phase.exit_code
  else none

/-- One raw trace node as consumed by `Transaction.from_ton_api_trace`.
The transaction fields (`success` … `op_code`) are those of the
`"transaction"` sub-object when that key is present, of the node itself
otherwise; `interfaces` and `children` are always read from the node
itself.  Absent keys are `false`/`none`/`[]` (the Python defaults). -/
inductive TraceNode where
  | mk
      (success : Bool) (aborted : Bool)
      (compute_phase : Option PhaseData) (action_phase : Option PhaseData)
      (hash : String) (block : String) (account : String)
      (utime : Int) (total_fees : Int) (end_balance : Int)
      (op_code : Option String)
      (interfaces : List String)
      (children : List TraceNode)

def TraceNode.success : TraceNode → Bool
  | .mk s _ _ _ _ _ _ _ _ _ _ _ _ => s

def TraceNode.aborted : TraceNode → Bool
  | .mk _ a _ _ _ _ _ _ _ _ _ _ _ => a

def TraceNode.compute_phase : TraceNode → Option PhaseData
  | .mk _ _ cp _ _ _ _ _ _ _ _ _ _ => cp

def TraceNode.action_phase : TraceNode → Option PhaseData
  | .mk _ _ _ ap _ _ _ _ _ _ _ _ _ => ap

def TraceNode.children : TraceNode → List TraceNode
  | .mk _ _ _ _ _ _ _ _ _ _ _ _ cs => cs

/-- The `Transaction` value class of `tonutils/client/models.py`
(constructor already applied: `interfaces`/`children` are lists). -/
inductive Transaction where
  | mk
      (hash : String) (block : String) (account : String)
      (success : Bool)
      (timestamp : Int) (total_fees : Int) (end_balance : Int)
      (op_code : Option String)
      (compute_phase : PhaseResult) (action_phase : PhaseResult)
      (error : Option String)
      (interfaces : List String)
      (children : List Transaction)

def Transaction.hash : Transaction → String
  | .mk h _ _ _ _ _ _ _ _ _ _ _ _ => h

def Transaction.block : Transaction → String
  | .mk _ b _ _ _ _ _ _ _ _ _ _ _ => b

def Transaction.success : Transaction → Bool
  | .mk _ _ _ s _ _ _ _ _ _ _ _ _ => s

def Transaction.error : Transaction → Option String
  | .mk _ _ _ _ _ _ _ _ _ _ e _ _ => e

def Transaction.interfaces : Transaction → List String
  | .mk _ _ _ _ _ _ _ _ _ _ _ i _ => i

def Transaction.children : Transaction → List Transaction
  | .mk _ _ _ _ _ _ _ _ _ _ _ _ cs => cs

/-- Replace only the `success` field of a `Transaction`. -/
def Transaction.setSuccess : Transaction → Bool → Transaction
  | .mk h b a _ ts tf eb oc cp ap er ifs cs, s =>
      .mk h b a s ts tf eb oc cp ap er ifs cs

mutual

/-- `Transaction.from_ton_api_trace` of `tonutils/client/models.py`:
parse both phases, derive the error, force `success` to `false` when an
error is present, recurse into children only when successful, and
synthesize `interfaces = ["uninit"]` for `cskip_no_state` without
reported interfaces. -/
def Transaction.from_ton_api_trace : TraceNode → Transaction
  | .mk raw_success raw_aborted cp ap hash block account utime total_fees
      end_balance op_code interfaces0 children =>
    let compute_phase := parse_phase cp
    let action_phase := parse_phase ap
    let success0 := raw_success && !raw_aborted
    let error := derive_error compute_phase action_phase
    let success := if error.isSome then false else success0
    let kids :=
      if success && !children.isEmpty then fromTraceList children else []
    let interfaces :=
      if interfaces0.isEmpty && error == some "cskip_no_state" then
        ["uninit"]
      else interfaces0
    .mk hash block account success utime total_fees end_balance op_code
      compute_phase action_phase error interfaces kids

/-- The `for child_data in data["children"]` loop of
`Transaction.from_ton_api_trace`. -/
def fromTraceList : List TraceNode → List Transaction
  | [] => []
  | n :: ns => Transaction.from_ton_api_trace n :: fromTraceList ns

end

/-- The `TransactionReceipt` value class of `tonutils/client/models.py`.
The Python attribute `error` always holds a list after `__init__`
(`self.error = error or []`), so the stored value is modelled as
`some list`; `interfaces` is stored unchanged (`self.interfaces =
interfaces`), so it may be `none`.  The set created by the traversal is
modelled as a `Finset` since the Python set / list conversion order is
unspecified. -/
structure TransactionReceipt where
  hash : String
  block : String
  block_hash : String
  success : Bool
  batch_transaction : Bool
  raw_transaction : Transaction
  error : Option (List String)
  interfaces : Option (Finset String)

/-- `TransactionReceipt.__init__`: every field is stored unchanged
except `error`, which is normalized by `error or []`. -/
def TransactionReceipt.ofParts (hash block block_hash : String)
    (success batch_transaction : Bool) (raw_transaction : Transaction)
    (error : Option (List String)) (interfaces : Option (Finset String)) :
    TransactionReceipt :=
  ⟨hash, block, block_hash, success, batch_transaction, raw_transaction,
    some (error.getD []), interfaces⟩

mutual

/-- The inner `traverse` of `TransactionReceipt.from_transaction`:
returns `(collected_errors, batch_node, interfaces)`.  A failed node
with a truthy (non-`None`, non-empty) error contributes its error and
is not descended into; otherwise the node contributes `batch_node` when
it has at least two children and the child results are folded in
source order. -/
def TransactionReceipt.traverse :
    Transaction → List String × Bool × Finset String
  | .mk _ _ _ success _ _ _ _ _ _ error interfaces children =>
    let interfaces0 : Finset String := interfaces.toFinset
    if !success && optStrTruthy error then
      ([error.getD ""], false, interfaces0)
    else
      let rs := traverseList children
      (rs.foldl (fun acc r => acc ++ r.1) [],
       rs.foldl (fun acc r => acc || r.2.1) (decide (2 ≤ children.length)),
       rs.foldl (fun acc r => acc ∪ r.2.2) interfaces0)

/-- The `for child in tx.children` loop of the traversal. -/
def traverseList :
    List Transaction → List (List String × Bool × Finset String)
  | [] => []
  | t :: ts => TransactionReceipt.traverse t :: traverseList ts

end

/-- `TransactionReceipt.from_transaction` of `tonutils/client/models.py`:
collapse the tree, then build the receipt with
`success = (len(errors) == 0)`, `error = errors or None`,
`interfaces = list(interfaces) if interfaces else None`. -/
def TransactionReceipt.from_transaction (tx : Transaction)
    (block_hash : String) : TransactionReceipt :=
  let r := TransactionReceipt.traverse tx
  TransactionReceipt.ofParts tx.hash tx.block block_hash
    (decide (r.1.length = 0)) r.2.1 tx
    (if r.1.isEmpty then none else some r.1)
    (if r.2.2 = ∅ then none else some r.2.2)

/-! ### Specification-side functions

The following functions are written from the words of the
specification (and, where a claim had to be amended, from the amended
wording); they are compared with the code-side functions above. -/

/-- Written from the words of the original claim about the derived
error: "the normalized (lowercased, spaces replaced by underscores)
skip reason if the compute phase is skipped; else the translated
compute exit code if the compute phase is not successful; else the
translated action exit code if the action phase is not successful;
else None". -/
def specDerivedError (cp ap : PhaseResult) : Option String :=
  if cp.skipped then
    some (normalizeReason (cp.skip_reason.getD ""))
  else if cp.success = false then
    ExitCode.translate cp.exit_code
  else if ap.success = false then
    ExitCode.translate ap.exit_code
  else none

/-- Written from the words of the amended claim: as `specDerivedError`,
except that a skipped compute phase whose skip reason is missing or
empty yields the fixed tag `"compute_phase_skipped"`. -/
def amendedDerivedError (cp ap : PhaseResult) : Option String :=
  if cp.skipped then
    match cp.skip_reason with
    | some r =>
        if r = "" then some "compute_phase_skipped"
        else some (normalizeReason r)
    | none => some "compute_phase_skipped"
  else if cp.success = false then
    ExitCode.translate cp.exit_code
  else if ap.success = false then
    ExitCode.translate ap.exit_code
  else none

mutual

/-- Written from the words of the amended collection claim: the errors
collected depth-first, where a failed node with a non-empty error
contributes exactly its own error and its children are not visited,
and every other node contributes the collections of its children in order. -/
def errorsOf : Transaction → List String
  | .mk _ _ _ success _ _ _ _ _ _ error _ children =>
    if !success && optStrTruthy error then [error.getD ""]
    else errorsOfList children

def errorsOfList : List Transaction → List String
  | [] => []
  | t :: ts => errorsOf t ++ errorsOfList ts

end

mutual

/-- Written from the words of the amended batch claim: some node
visited by the error-collection traversal has at least two children
(failed nodes with a non-empty error are not counted and cut off their
subtree). -/
def hasBatchNode : Transaction → Bool
  | .mk _ _ _ success _ _ _ _ _ _ error _ children =>
    if !success && optStrTruthy error then false
    else decide (2 ≤ children.length) || hasBatchList children

def hasBatchList : List Transaction → Bool
  | [] => false
  | t :: ts => hasBatchNode t || hasBatchList ts

end

mutual

/-- Written from the words of the original batch claim: some node in
the tree, root or descendant, has at least two children. -/
def anyNodeTwoChildren : Transaction → Bool
  | .mk _ _ _ _ _ _ _ _ _ _ _ _ children =>
    decide (2 ≤ children.length) || anyNodeTwoChildrenList children

def anyNodeTwoChildrenList : List Transaction → Bool
  | [] => false
  | t :: ts => anyNodeTwoChildren t || anyNodeTwoChildrenList ts

end

/-! ### NFT batch-mint message builders

The cell/builder primitives come from the external `pytoniq_core`
library; the specification treats them as an external dependency
contract, so they are embedded symbolically: a `Cell` is the abstract
syntax of the builder calls that produced it, which is enough to state
and check the dictionary-shape properties of the bodies built in
`tonutils/nft/contract/standard/collection.py` and
`tonutils/nft/contract/soulbound/collection.py`. -/

/-- An on-chain address (opaque for the builder claims). -/
structure Address where
  raw : String

/-- Symbolic builder cell: each constructor records one
`begin_cell()...` builder call of the external cell primitive.
`storeDict` carries the key width and the entry list of the serialized
dictionary. -/
inductive Cell where
  | base
  | storeUint (prev : Cell) (value : Int) (bits : Nat)
  | storeCoins (prev : Cell) (amount : Int)
  | storeAddress (prev : Cell) (addr : Option Address)
  | storeRef (prev : Cell) (ref : Cell)
  | storeDict (prev : Cell) (key_size : Nat) (entries : List (Int × Cell))

/-- A per-item NFT content value; only its serialized cell matters to
the batch-mint builders, so it is carried directly. -/
structure NFTContent where
  serialized : Cell

/-- `content.serialize()` as called by the builders. -/
def NFTContent.serialize (c : NFTContent) : Cell := c.serialized

/-- Python `dict` assignment used by `pytoniq` `HashMap.set_int_key`
on the underlying entry list: overwrite in place when the key is
already present, append otherwise (insertion order is kept). -/
def setIntKey (entries : List (Int × Cell)) (key : Int) (value : Cell) :
    List (Int × Cell) :=
  if entries.any (fun p => p.1 == key) then
    entries.map (fun p => if p.1 == key then (key, value) else p)
  else entries ++ [(key, value)]

/-- The external `pytoniq` `HashMap` as used by the builders: a key
width and the keyed entries. -/
structure HashMap where
  key_size : Nat
  entries : List (Int × Cell)

/-- `HashMap.set_int_key` of the external `pytoniq` dictionary. -/
def HashMap.set_int_key (m : HashMap) (key : Int) (value : Cell) : HashMap :=
  ⟨m.key_size, setIntKey m.entries key value⟩

/-- Modelled from the spec: the fixed 32-bit batch-mint opcode constant
from `tonutils/nft/op_codes.py`, which is not part of the sources under
verification; its concrete value is irrelevant to the dictionary-shape
properties proved here. -/
def BATCH_NFT_MINT_OPCODE : Int := 0

/-- The dictionary-building loop shared verbatim by both batch-mint
builders: `items_dict = HashMap(key_size=64)` followed by
`for i, item in enumerate(data, start=0):
items_dict.set_int_key(i + from_index, g(item))`, where `g` builds the
per-item sub-cell. -/
def batchItemsDict {α : Type} (g : Nat × α → Cell) (from_index : Int)
    (data : List α) : HashMap :=
  data.enum.foldl
    (fun m q => m.set_int_key (((q.1 : Nat) : Int) + from_index) (g q))
    ⟨64, []⟩

/-- The per-item sub-cell of
`CollectionStandardBase.build_batch_mint_body`:
`begin_cell().store_coins(amount_per_one).store_ref(
begin_cell().store_address(owner).store_ref(content.serialize())
.end_cell()).end_cell()`. -/
def standardItemCell (amount_per_one : Int) (item : NFTContent × Address) :
    Cell :=
  .storeRef (.storeCoins .base amount_per_one)
    (.storeRef (.storeAddress .base (some item.2)) item.1.serialize)

/-- `CollectionStandardBase.build_batch_mint_body` of
`tonutils/nft/contract/standard/collection.py`: a 64-bit-keyed
dictionary built by `set_int_key(i + from_index, item_cell_i)` over
`enumerate(data)`, stored after the opcode and the query id. -/
def CollectionStandardBase.build_batch_mint_body
    (data : List (NFTContent × Address)) (from_index : Int)
    (amount_per_one : Int) (query_id : Int) : Cell :=
  let items_dict : HashMap :=
    batchItemsDict (fun q => standardItemCell amount_per_one q.2)
      from_index data
  .storeDict
    (.storeUint (.storeUint .base BATCH_NFT_MINT_OPCODE 32) query_id 64)
    items_dict.key_size items_dict.entries

/-- The per-item sub-cell of
`CollectionSoulboundBase.build_batch_mint_body`:
`begin_cell().store_coins(amount_per_one).store_ref(
begin_cell().store_address(owner).store_address(authority or owner)
.store_uint(revoked_at or 0, 64).store_ref(content.serialize())
.end_cell()).end_cell()`. -/
def soulboundItemCell (amount_per_one : Int)
    (item : NFTContent × Address × Option Address × Option Int) : Cell :=
  .storeRef (.storeCoins .base amount_per_one)
    (.storeRef
      (.storeUint
        (.storeAddress (.storeAddress .base (some item.2.1))
          (some (item.2.2.1.getD item.2.1)))
        ((item.2.2.2.getD 0)) 64)
      item.1.serialize)

/-- `CollectionSoulboundBase.build_batch_mint_body` of
`tonutils/nft/contract/soulbound/collection.py`: same dictionary
construction as the standard family with the soulbound per-item
sub-cell. -/
def CollectionSoulboundBase.build_batch_mint_body
    (data : List (NFTContent × Address × Option Address × Option Int))
    (from_index : Int) (amount_per_one : Int) (query_id : Int) : Cell :=
  let items_dict : HashMap :=
    batchItemsDict (fun q => soulboundItemCell amount_per_one q.2)
      from_index data
  .storeDict
    (.storeUint (.storeUint .base BATCH_NFT_MINT_OPCODE 32) query_id 64)
    items_dict.key_size items_dict.entries

/-- `SweetCollectionSoulbound.build_batch_mint_body` of
`tonutils/nft/contract/soulbound/collection.py`: the body
unconditionally executes `raise NotImplementedError`. -/
def SweetCollectionSoulbound.build_batch_mint_body
    (data : List (NFTContent × Address × Option Address × Option Int))
    (from_index : Int) (amount_per_one : Int) (query_id : Int) :
    Except String Cell :=
  Except.error "NotImplementedError"

/-- The dictionary argument stored in a built batch-mint body. -/
def Cell.dictArg : Cell → HashMap
  | .storeDict _ ks es => ⟨ks, es⟩
  | _ => ⟨0, []⟩

/-! ### Concrete inputs used by witnesses and counterexamples -/

/-- A trace node whose compute phase is reported skipped with the
explicit empty-string skip reason `""` (a value the backend can send;
it is falsy in Python). -/
def cexNodeC1 : TraceNode :=
  .mk true false (some ⟨false, true, some "", false, none, none⟩) none
    "h" "b" "acct" 0 0 0 none [] []

/-- A trace node whose compute phase ran and failed with exit code 2
(stack underflow) while the raw flags report success. -/
def witNodeC2 : TraceNode :=
  .mk true false (some ⟨false, false, none, true, some 2, none⟩)
    (some ⟨true, false, none, false, none, none⟩)
    "h" "b" "acct" 0 0 0 none [] []

/-- A phase result used for concrete transaction trees. -/
def okPhase : PhaseResult := ⟨true, false, none, none⟩

/-- A failed transaction node carrying the empty-string error `""`
(non-`None` but falsy in Python) with one failed child carrying a real
error. -/
def cexTxC4 : Transaction :=
  .mk "h" "b" "acct" false 0 0 0 none okPhase okPhase (some "") []
    [.mk "hc" "b" "acct" false 0 0 0 none okPhase okPhase (some "boom")
      [] []]

/-- A failed transaction node with a truthy error and two successful
children. -/
def cexTxC5 : Transaction :=
  .mk "h" "b" "acct" false 0 0 0 none okPhase okPhase (some "boom") []
    [.mk "h1" "b" "acct" true 0 0 0 none okPhase okPhase none [] [],
     .mk "h2" "b" "acct" true 0 0 0 none okPhase okPhase none [] []]

/-- A single successful transaction node with no error and no
interfaces. -/
def witTxC9 : Transaction :=
  .mk "h" "b" "acct" true 0 0 0 none okPhase okPhase none [] []

/-- A failed transaction node without an error. -/
def txC10 : Transaction :=
  .mk "h" "b" "acct" false 0 0 0 none okPhase okPhase none [] []

/-- A trace node whose raw flags report failure while both phases ran
and succeeded. -/
def witNodeC10 : TraceNode :=
  .mk false false (some ⟨true, false, none, true, some 0, none⟩)
    (some ⟨true, false, none, true, some 0, none⟩)
    "h" "b" "acct" 0 0 0 none [] []

/-! ### Helper lemmas -/

theorem lookup_eq_none_of_not_mem_keys :
    ∀ (l : List (Int × String)) (c : Int),
      c ∉ l.map Prod.fst → l.lookup c = none := by
  intro l
  induction l with
  | nil => intro c _; rfl
  | cons p t ih =>
      intro c hc
      simp only [List.map_cons, List.mem_cons] at hc
      push_neg at hc
      obtain ⟨p1, p2⟩ := p
      rw [List.lookup_cons]
      have : (c == p1) = false := by
        simpa using hc.1
      simp [this, ih c hc.2]

theorem fromTraceList_eq_map (ns : List TraceNode) :
    fromTraceList ns = ns.map Transaction.from_ton_api_trace := by
  induction ns with
  | nil => rfl
  | cons n ns ih => simp [fromTraceList, ih]

theorem traverseList_eq_map (ts : List Transaction) :
    traverseList ts = ts.map TransactionReceipt.traverse := by
  induction ts with
  | nil => rfl
  | cons t ts ih => simp [traverseList, ih]

theorem foldl_append_fst
    (rs : List (List String × Bool × Finset String)) :
    ∀ acc : List String,
      rs.foldl (fun acc r => acc ++ r.1) acc
        = acc ++ (rs.map (fun r => r.1)).flatten := by
  induction rs with
  | nil => intro acc; simp
  | cons r rs ih => intro acc; simp [List.foldl_cons, ih]

theorem foldl_or_batch
    (rs : List (List String × Bool × Finset String)) :
    ∀ b : Bool,
      rs.foldl (fun acc r => acc || r.2.1) b
        = (b || rs.any (fun r => r.2.1)) := by
  induction rs with
  | nil => intro b; simp
  | cons r rs ih => intro b; simp [List.foldl_cons, ih, Bool.or_assoc]

theorem errorsOfList_eq_flatten (ts : List Transaction) :
    errorsOfList ts = (ts.map errorsOf).flatten := by
  induction ts with
  | nil => rfl
  | cons t ts ih => simp [errorsOfList, ih]

theorem hasBatchList_eq_any (ts : List Transaction) :
    hasBatchList ts = ts.any hasBatchNode := by
  induction ts with
  | nil => rfl
  | cons t ts ih => simp [hasBatchList, ih]

theorem Transaction.inductionOn {motive : Transaction → Prop}
    (step : ∀ (h b a : String) (s : Bool) (ts tf eb : Int)
      (oc : Option String) (cp ap : PhaseResult) (er : Option String)
      (ifs : List String) (children : List Transaction),
      (∀ c ∈ children, motive c) →
      motive (Transaction.mk h b a s ts tf eb oc cp ap er ifs children)) :
    ∀ tx, motive tx
  | .mk h b a s ts tf eb oc cp ap er ifs children =>
    step h b a s ts tf eb oc cp ap er ifs children
      (fun c hc =>
        have : sizeOf c <
            sizeOf (Transaction.mk h b a s ts tf eb oc cp ap er ifs children) :=
          Nat.lt_trans (List.sizeOf_lt_of_mem hc) (by simp)
        Transaction.inductionOn step c)
termination_by tx => sizeOf tx

theorem traverse_errors :
    ∀ tx, (TransactionReceipt.traverse tx).1 = errorsOf tx := by
  intro tx
  induction tx using Transaction.inductionOn with
  | step h b a s ts tf eb oc cp ap er ifs children ih =>
      rw [TransactionReceipt.traverse, errorsOf]
      by_cases hg : (!s && optStrTruthy er) = true
      · simp only [hg, if_true]
      · simp only [hg, if_false, Bool.false_eq_true]
        rw [traverseList_eq_map, foldl_append_fst, List.nil_append,
          List.map_map, errorsOfList_eq_flatten]
        congr 1
        exact List.map_congr_left fun c hc => ih c hc

theorem any_map_general {α β : Type} (l : List α) (f : α → β)
    (p : β → Bool) : (l.map f).any p = l.any (fun a => p (f a)) := by
  induction l with
  | nil => rfl
  | cons a l ih => simp [ih]

theorem any_congr_mem {α : Type} (l : List α) (p q : α → Bool)
    (hpq : ∀ a ∈ l, p a = q a) : l.any p = l.any q := by
  induction l with
  | nil => rfl
  | cons a l ih =>
      simp only [List.any_cons, hpq a (by simp)]
      rw [ih fun a ha => hpq a (by simp [ha])]

theorem traverse_batch :
    ∀ tx, (TransactionReceipt.traverse tx).2.1 = hasBatchNode tx := by
  intro tx
  induction tx using Transaction.inductionOn with
  | step h b a s ts tf eb oc cp ap er ifs children ih =>
      rw [TransactionReceipt.traverse, hasBatchNode]
      by_cases hg : (!s && optStrTruthy er) = true
      · simp only [hg, if_true]
      · simp only [hg, if_false, Bool.false_eq_true]
        rw [traverseList_eq_map, foldl_or_batch, any_map_general,
          hasBatchList_eq_any]
        congr 1
        exact any_congr_mem children _ _ fun c hc => ih c hc

theorem fromTrace_mk (rs ra : Bool) (cp ap : Option PhaseData)
    (h b a : String) (ut tf eb : Int) (oc : Option String)
    (ifs : List String) (cs : List TraceNode) :
    Transaction.from_ton_api_trace
        (.mk rs ra cp ap h b a ut tf eb oc ifs cs)
      = (let compute_phase := parse_phase cp
         let action_phase := parse_phase ap
         let error := derive_error compute_phase action_phase
         let success := if error.isSome then false else rs && !ra
         Transaction.mk h b a success ut tf eb oc compute_phase action_phase
           error
           (if ifs.isEmpty && error == some "cskip_no_state" then ["uninit"]
            else ifs)
           (if success && !cs.isEmpty then fromTraceList cs else [])) := by
  rw [Transaction.from_ton_api_trace]

theorem derive_error_eq_amended (cp ap : PhaseResult) :
    derive_error cp ap = amendedDerivedError cp ap := by
  obtain ⟨cs, csk, csr, cec⟩ := cp
  rw [derive_error, amendedDerivedError]
  cases csk with
  | false => simp
  | true =>
      simp only [if_true]
      cases csr with
      | none => simp [optStrTruthy]
      | some r =>
          by_cases hr : r = ""
          · have hemp : "".isEmpty = true := rfl
            simp [optStrTruthy, hr, hemp]
          · have hre : r.isEmpty = false := by
              cases he : r.isEmpty
              · rfl
              · exact absurd ((String.isEmpty_iff r).mp he) hr
            simp [optStrTruthy, hre, hr]

theorem setIntKey_fresh (entries : List (Int × Cell)) (key : Int)
    (value : Cell) (h : entries.any (fun p => p.1 == key) = false) :
    setIntKey entries key value = entries ++ [(key, value)] := by
  simp only [setIntKey, h, Bool.false_eq_true, if_false]

theorem hashmap_fold {α : Type} (g : Nat × α → Cell) (k : Int)
    (l : List (Nat × α)) :
    ∀ m : HashMap,
      l.foldl (fun m q => m.set_int_key (((q.1 : Nat) : Int) + k) (g q)) m
        = ⟨m.key_size,
           l.foldl (fun e q => setIntKey e (((q.1 : Nat) : Int) + k) (g q))
             m.entries⟩ := by
  induction l with
  | nil => intro m; rfl
  | cons q l ih =>
      intro m
      rw [List.foldl_cons, List.foldl_cons, ih]
      rfl

theorem enumFrom_fold_set {α : Type} (g : Nat × α → Cell) (k : Int) :
    ∀ (l : List α) (n : Nat) (acc : List (Int × Cell)),
      (∀ p ∈ acc, ∀ j : Nat, n ≤ j → p.1 ≠ ((j : Int) + k)) →
      (List.enumFrom n l).foldl
          (fun e q => setIntKey e (((q.1 : Nat) : Int) + k) (g q)) acc
        = acc ++ (List.enumFrom n l).map
            (fun q => (((q.1 : Nat) : Int) + k, g q)) := by
  intro l
  induction l with
  | nil => intro n acc _; simp
  | cons a l ih =>
      intro n acc hacc
      rw [List.enumFrom_cons, List.foldl_cons]
      have hfresh : acc.any (fun p => p.1 == ((n : Int) + k)) = false := by
        rw [List.any_eq_false]
        intro p hp
        simpa using hacc p hp n (Nat.le_refl n)
      rw [setIntKey_fresh acc _ _ hfresh]
      rw [ih (n + 1) (acc ++ [(((n : Nat) : Int) + k, g (n, a))]) ?fresh]
      · simp
      case fresh =>
        intro p hp j hj
        rcases List.mem_append.mp hp with hin | hnew
        · exact hacc p hin j (Nat.le_of_succ_le hj)
        · have hpe : p = (((n : Nat) : Int) + k, g (n, a)) := by
            simpa using hnew
          rw [hpe]
          have : n < j := hj
          simp only []
          intro hcontra
          have : (n : Int) = (j : Int) := by omega
          omega

theorem batch_dict_shape {α : Type} (g : Nat × α → Cell) (k : Int)
    (data : List α) :
    batchItemsDict g k data
      = ⟨64, data.enum.map (fun q => (((q.1 : Nat) : Int) + k, g q))⟩ := by
  rw [batchItemsDict, hashmap_fold]
  rw [show data.enum = List.enumFrom 0 data from rfl]
  rw [enumFrom_fold_set g k data 0 [] (by intro p hp; simp at hp)]
  rfl

theorem fromTrace_error_eq (rs ra : Bool) (cp ap : Option PhaseData)
    (h b a : String) (ut tf eb : Int) (oc : Option String)
    (ifs : List String) (cs : List TraceNode) :
    (Transaction.from_ton_api_trace
        (.mk rs ra cp ap h b a ut tf eb oc ifs cs)).error
      = derive_error (parse_phase cp) (parse_phase ap) := by
  simp [Transaction.from_ton_api_trace, Transaction.error]

theorem fromTrace_success_eq (rs ra : Bool) (cp ap : Option PhaseData)
    (h b a : String) (ut tf eb : Int) (oc : Option String)
    (ifs : List String) (cs : List TraceNode) :
    (Transaction.from_ton_api_trace
        (.mk rs ra cp ap h b a ut tf eb oc ifs cs)).success
      = (if (derive_error (parse_phase cp) (parse_phase ap)).isSome
         then false else rs && !ra) := by
  simp [Transaction.from_ton_api_trace, Transaction.success]

theorem fromTrace_children_eq (rs ra : Bool) (cp ap : Option PhaseData)
    (h b a : String) (ut tf eb : Int) (oc : Option String)
    (ifs : List String) (cs : List TraceNode) :
    (Transaction.from_ton_api_trace
        (.mk rs ra cp ap h b a ut tf eb oc ifs cs)).children
      = (if (if (derive_error (parse_phase cp) (parse_phase ap)).isSome
             then false else rs && !ra) && !cs.isEmpty
         then fromTraceList cs else []) := by
  simp [Transaction.from_ton_api_trace, Transaction.children]

/-! ### Claim theorems -/

/-- Claim C1, counterexample to the original statement: for the trace
node whose compute phase is skipped with the explicit empty skip
reason `""`, the code derives the fixed tag `"compute_phase_skipped"`,
while the rule of the claim (normalized skip reason whenever the compute
phase is skipped) yields `""`. -/
theorem claim_C1_cex :
    (Transaction.from_ton_api_trace cexNodeC1).error
        = some "compute_phase_skipped"
      ∧ specDerivedError (parse_phase cexNodeC1.compute_phase)
          (parse_phase cexNodeC1.action_phase) = some ""
      ∧ some "compute_phase_skipped" ≠ some "" := by
  refine ⟨?code, ?spec, by decide⟩
  case code =>
    rw [show cexNodeC1
        = .mk true false (some ⟨false, true, some "", false, none, none⟩)
            none "h" "b" "acct" 0 0 0 none [] [] from rfl]
    rw [fromTrace_error_eq]
    decide
  case spec => decide

/-- Claim C1 (amended): for every trace node, the derived error of the
parsed transaction is: if the compute phase is skipped, the normalized
(lowercased, spaces-to-underscores) skip reason when that reason is
present and non-empty and the fixed tag `"compute_phase_skipped"`
otherwise; else the translated compute exit code if the compute phase
is not successful; else the translated action exit code if the action
phase is not successful; else `none`. -/
theorem claim_C1 (n : TraceNode) :
    (Transaction.from_ton_api_trace n).error
      = amendedDerivedError (parse_phase n.compute_phase)
          (parse_phase n.action_phase) := by
  obtain ⟨rs, ra, cp, ap, h, b, a, ut, tf, eb, oc, ifs, cs⟩ := n
  rw [fromTrace_error_eq, TraceNode.compute_phase, TraceNode.action_phase]
  exact derive_error_eq_amended _ _

/-- Claim C1 witness: the amended rule evaluated at a concrete node
(skipped compute phase with reason `"No state"`). -/
theorem claim_C1_wit :
    (Transaction.from_ton_api_trace
        (.mk true false (some ⟨false, true, some "No state", false, none,
          none⟩) none "h" "b" "acct" 0 0 0 none [] [])).error
      = some "no_state" := by
  rw [claim_C1 (.mk true false
    (some ⟨false, true, some "No state", false, none, none⟩) none
    "h" "b" "acct" 0 0 0 none [] [])]
  decide

/-- Claim C2: whenever the derived error of a parsed trace node is not
`none`, the `success` of the resulting transaction is `false`, whatever the
raw `success`/`aborted` flags said. -/
theorem claim_C2 (n : TraceNode)
    (herr : (Transaction.from_ton_api_trace n).error ≠ none) :
    (Transaction.from_ton_api_trace n).success = false := by
  obtain ⟨rs, ra, cp, ap, h, b, a, ut, tf, eb, oc, ifs, cs⟩ := n
  rw [fromTrace_error_eq] at herr
  rw [fromTrace_success_eq]
  cases hd : derive_error (parse_phase cp) (parse_phase ap) with
  | none => exact absurd hd herr
  | some e => simp [hd]

/-- Claim C2 witness: a node whose compute phase failed with exit code
2 parses to a failed transaction although the raw flags reported
success. -/
theorem claim_C2_wit :
    (Transaction.from_ton_api_trace witNodeC2).success = false :=
  claim_C2 witNodeC2 (by decide)

/-- Claim C3: the children of the parsed transaction are exactly the parsed
child nodes when the final derived success is `true`, and the empty
list whenever the final derived success is `false`, even if the input
supplied children. -/
theorem claim_C3 (n : TraceNode) :
    (Transaction.from_ton_api_trace n).children
      = (if (Transaction.from_ton_api_trace n).success = true
         then n.children.map Transaction.from_ton_api_trace
         else []) := by
  obtain ⟨rs, ra, cp, ap, h, b, a, ut, tf, eb, oc, ifs, cs⟩ := n
  rw [fromTrace_children_eq, fromTrace_success_eq, TraceNode.children]
  cases hs : (if (derive_error (parse_phase cp)
      (parse_phase ap)).isSome then false else rs && !ra) with
  | false => simp
  | true => cases cs <;> simp [fromTraceList_eq_map]

/-- Claim C6: `ExitCode.translate` is total; every code of the fixed
table maps to its documented tag (in particular both `13` and `-14`
map to `"out_of_gas"`), every code outside the table maps to
`"unknown_exit_code_<code>"`, and `none` maps to `none`. -/
theorem claim_C6 :
    (∀ p ∈ ExitCode.code_map, ExitCode.translate (some p.1) = some p.2)
      ∧ ExitCode.translate (some 13) = some "out_of_gas"
      ∧ ExitCode.translate (some (-14)) = some "out_of_gas"
      ∧ (∀ c : Int, c ∉ ExitCode.code_map.map Prod.fst →
          ExitCode.translate (some c)
            = some ("unknown_exit_code_" ++ toString c))
      ∧ ExitCode.translate none = none := by
  refine ⟨by decide, by decide, by decide, ?unknown, rfl⟩
  case unknown =>
    intro c hc
    rw [ExitCode.translate, lookup_eq_none_of_not_mem_keys _ c hc]
    rfl

/-- Claim C6 witness: the table rule at code 2 and the fallback rule at
code 999. -/
theorem claim_C6_wit :
    ExitCode.translate (some 2) = some "stack_underflow"
      ∧ ExitCode.translate (some 999)
          = some ("unknown_exit_code_" ++ toString (999 : Int)) :=
  ⟨claim_C6.1 (2, "stack_underflow") (by decide),
   claim_C6.2.2.2.1 999 (by decide)⟩

theorem from_transaction_error (tx : Transaction) (bh : String) :
    (TransactionReceipt.from_transaction tx bh).error
      = some (TransactionReceipt.traverse tx).1 := by
  simp only [TransactionReceipt.from_transaction, TransactionReceipt.ofParts]
  cases h : (TransactionReceipt.traverse tx).1 with
  | nil => simp [h]
  | cons e es => simp [h]

theorem from_transaction_success (tx : Transaction) (bh : String) :
    (TransactionReceipt.from_transaction tx bh).success
      = decide ((TransactionReceipt.traverse tx).1.length = 0) := by
  simp only [TransactionReceipt.from_transaction, TransactionReceipt.ofParts]

theorem from_transaction_batch (tx : Transaction) (bh : String) :
    (TransactionReceipt.from_transaction tx bh).batch_transaction
      = (TransactionReceipt.traverse tx).2.1 := by
  simp only [TransactionReceipt.from_transaction, TransactionReceipt.ofParts]

theorem from_transaction_interfaces (tx : Transaction) (bh : String) :
    (TransactionReceipt.from_transaction tx bh).interfaces
      = (if (TransactionReceipt.traverse tx).2.2 = ∅ then none
         else some (TransactionReceipt.traverse tx).2.2) := by
  simp only [TransactionReceipt.from_transaction, TransactionReceipt.ofParts]

/-- Claim C4, counterexample to the original statement: `cexTxC4` is a
failed node whose error is the non-`None` value `some ""`; the claim
says that error is appended and the children are not visited, which
would collect `[""]`, but the code (which tests Python truthiness,
under which `""` is falsy) descends into the child and collects
`["boom"]` instead. -/
theorem claim_C4_cex :
    cexTxC4.success = false
      ∧ cexTxC4.error = some ""
      ∧ some "" ≠ (none : Option String)
      ∧ (TransactionReceipt.from_transaction cexTxC4 "bh").error
          = some ["boom"]
      ∧ some ["boom"] ≠ some [""] := by
  refine ⟨rfl, rfl, by decide, ?rec, by decide⟩
  case rec =>
    rw [from_transaction_error]
    decide

/-- Claim C4 (amended): the collected error list of the receipt is exactly
`errorsOf`, the depth-first collection that, at a failed node with a
non-empty (truthy) error, appends that error and does not descend, and
at every other node descends into the children; and the receipt field
`success` is `true` iff that collected list is empty. -/
theorem claim_C4 (tx : Transaction) (bh : String) :
    (TransactionReceipt.from_transaction tx bh).error = some (errorsOf tx)
      ∧ ((TransactionReceipt.from_transaction tx bh).success = true
          ↔ errorsOf tx = []) := by
  have he := traverse_errors tx
  refine ⟨?err, ?succ⟩
  case err => rw [from_transaction_error, he]
  case succ =>
    rw [from_transaction_success, he]
    simp [List.length_eq_zero]

/-- Claim C5, counterexample to the original statement: `cexTxC5` is a
tree whose root has two children, so the claim requires
`batch_transaction = true`, but the root is failed with a truthy
error, so the traversal stops there and the receipt reports `false`. -/
theorem claim_C5_cex :
    (TransactionReceipt.from_transaction cexTxC5 "bh").batch_transaction
        = false
      ∧ anyNodeTwoChildren cexTxC5 = true := by
  refine ⟨?rec, by decide⟩
  case rec =>
    rw [from_transaction_batch]
    decide

/-- Claim C5 (amended): the receipt flag `batch_transaction` is
`true` iff some node visited by the error-collection traversal has at
least two children; failed nodes with a non-empty error are not
counted and their subtrees are not visited. -/
theorem claim_C5 (tx : Transaction) (bh : String) :
    (TransactionReceipt.from_transaction tx bh).batch_transaction
      = hasBatchNode tx := by
  rw [from_transaction_batch, traverse_batch]

/-- Claim C9, counterexample to the original statement: for a
successful single-node tree the traversal collects zero errors, but the
receipt attribute `error` is the empty list (the constructor runs
`self.error = error or []`), not `None`. -/
theorem claim_C9_cex :
    errorsOf witTxC9 = []
      ∧ (TransactionReceipt.from_transaction witTxC9 "bh").error = some []
      ∧ some ([] : List String) ≠ none := by
  refine ⟨by decide, ?rec, by decide⟩
  case rec =>
    rw [from_transaction_error]
    decide

/-- Claim C9 (amended): when the traversal collects zero errors the
receipt attribute `error` is the empty list (`from_transaction`
passes `None`, which `__init__` normalizes to `[]`), and `interfaces`
is `None` when no node contributed any interface. -/
theorem claim_C9 (tx : Transaction) (bh : String)
    (h : (TransactionReceipt.traverse tx).1 = []) :
    (TransactionReceipt.from_transaction tx bh).error = some []
      ∧ ((TransactionReceipt.traverse tx).2.2 = ∅ →
          (TransactionReceipt.from_transaction tx bh).interfaces = none) := by
  refine ⟨?err, ?ifs⟩
  case err => rw [from_transaction_error, h]
  case ifs =>
    intro hi
    rw [from_transaction_interfaces, hi]
    simp

/-- Claim C9 witness: the amended statement at the successful
single-node tree. -/
theorem claim_C9_wit :
    (TransactionReceipt.from_transaction witTxC9 "bh").error = some []
      ∧ (TransactionReceipt.from_transaction witTxC9 "bh").interfaces
          = none := by
  have h := claim_C9 witTxC9 "bh" (by decide)
  exact ⟨h.1, h.2 (by decide)⟩

/-- Claim C10: (1) the receipt traversal treats a failed node without
an error exactly like a successful node — its result is unchanged if
the `success` flag of the node is flipped to `true`, so no error is
collected there and the children are visited; (2) a trace node whose
raw flags report failure (raw `success = false` or `aborted = true`)
while both phases ran and succeeded parses to a transaction with
`success = false` and `error = none`, whose receipt has
`success = true`. -/
theorem claim_C10 :
    (∀ tx : Transaction, tx.success = false → tx.error = none →
        TransactionReceipt.traverse tx
          = TransactionReceipt.traverse (tx.setSuccess true))
      ∧ (∀ (n : TraceNode) (bh : String) (p q : PhaseData),
          (n.success = false ∨ n.aborted = true) →
          n.compute_phase = some p → p.skipped = false → p.success = true →
          n.action_phase = some q → q.skipped = false → q.success = true →
          (Transaction.from_ton_api_trace n).success = false
            ∧ (Transaction.from_ton_api_trace n).error = none
            ∧ (TransactionReceipt.from_transaction
                (Transaction.from_ton_api_trace n) bh).success = true) := by
  constructor
  · intro tx hs he
    obtain ⟨h, b, a, s, ts, tf, eb, oc, cp, ap, er, ifs, cs⟩ := tx
    rw [Transaction.error] at he
    subst he
    rw [Transaction.setSuccess]
    rw [TransactionReceipt.traverse, TransactionReceipt.traverse]
    simp [optStrTruthy]
  · intro n bh p q hraw hcp hps hpss haq hqs hqss
    obtain ⟨rs, ra, cp, ap, h, b, a, ut, tf, eb, oc, ifs, cs⟩ := n
    rw [TraceNode.compute_phase] at hcp
    rw [TraceNode.action_phase] at haq
    rw [TraceNode.success, TraceNode.aborted] at hraw
    subst hcp
    subst haq
    have hde : derive_error (parse_phase (some p)) (parse_phase (some q))
        = none := by
      simp [parse_phase, derive_error, hps, hqs, hpss, hqss]
    have hrs : (rs && !ra) = false := by
      rcases hraw with h1 | h1 <;> simp [h1]
    refine ⟨?succ, ?err, ?rsucc⟩
    case succ => rw [fromTrace_success_eq, hde]; simp [hrs]
    case err => rw [fromTrace_error_eq, hde]
    case rsucc =>
      have hfull : Transaction.from_ton_api_trace
          (.mk rs ra (some p) (some q) h b a ut tf eb oc ifs cs)
          = Transaction.mk h b a false ut tf eb oc (parse_phase (some p))
              (parse_phase (some q)) none ifs [] := by
        rw [fromTrace_mk]
        simp [hde, hrs]
      rw [hfull, from_transaction_success, traverse_errors]
      rw [errorsOf]
      simp [optStrTruthy, errorsOfList]

/-- Claim C10 witness: part (1) at a concrete failed node without an
error and part (2) at a concrete trace node with failing raw flags and
two successful phases. -/
theorem claim_C10_wit :
    (TransactionReceipt.traverse txC10
        = TransactionReceipt.traverse (txC10.setSuccess true))
      ∧ ((Transaction.from_ton_api_trace witNodeC10).success = false
          ∧ (Transaction.from_ton_api_trace witNodeC10).error = none
          ∧ (TransactionReceipt.from_transaction
              (Transaction.from_ton_api_trace witNodeC10) "bh").success
              = true) :=
  ⟨claim_C10.1 txC10 rfl rfl,
   claim_C10.2 witNodeC10 "bh" ⟨true, false, none, true, some 0, none⟩
     ⟨true, false, none, true, some 0, none⟩ (Or.inl rfl) rfl rfl rfl rfl
     rfl rfl⟩

theorem standard_dict_eq (dataS : List (NFTContent × Address))
    (k amt qid : Int) :
    (CollectionStandardBase.build_batch_mint_body dataS k amt qid).dictArg
      = ⟨64, dataS.enum.map
          (fun q => (((q.1 : Nat) : Int) + k, standardItemCell amt q.2))⟩ := by
  rw [show (CollectionStandardBase.build_batch_mint_body
      dataS k amt qid).dictArg
    = batchItemsDict (fun q => standardItemCell amt q.2) k dataS from rfl]
  exact batch_dict_shape _ k dataS

theorem soulbound_dict_eq
    (dataB : List (NFTContent × Address × Option Address × Option Int))
    (k amt qid : Int) :
    (CollectionSoulboundBase.build_batch_mint_body dataB k amt qid).dictArg
      = ⟨64, dataB.enum.map
          (fun q => (((q.1 : Nat) : Int) + k, soulboundItemCell amt q.2))⟩ := by
  rw [show (CollectionSoulboundBase.build_batch_mint_body
      dataB k amt qid).dictArg
    = batchItemsDict (fun q => soulboundItemCell amt q.2) k dataB from rfl]
  exact batch_dict_shape _ k dataB

theorem enum_keys_range {α : Type} (l : List α) (k : Int) :
    l.enum.map (fun q => (((q.1 : Nat) : Int) + k))
      = (List.range l.length).map (fun i => ((i : Nat) : Int) + k) := by
  rw [← List.enum_map_fst l, List.map_map]
  rfl

theorem enum_map_getElem {α β : Type} (l : List α) (f : Nat × α → β)
    (i : Fin l.length) :
    (l.enum.map f)[i.1]? = some (f (i.1, l.get i)) := by
  rw [List.getElem?_map, List.getElem?_enum]
  rw [List.getElem?_eq_getElem i.2]
  rfl

/-- Claim C7: for every list of N items and starting index k, both
batch-mint body builders construct a 64-bit-keyed dictionary with
exactly N entries, whose keys are exactly k, k+1, …, k+N-1 in order,
and whose i-th entry holds the sub-cell of the i-th item under key k+i. -/
theorem claim_C7 (dataS : List (NFTContent × Address))
    (dataB : List (NFTContent × Address × Option Address × Option Int))
    (k amt qid : Int) :
    (let d := (CollectionStandardBase.build_batch_mint_body
        dataS k amt qid).dictArg
     d.key_size = 64
       ∧ d.entries.length = dataS.length
       ∧ d.entries.map Prod.fst
           = (List.range dataS.length).map (fun i => ((i : Nat) : Int) + k)
       ∧ ∀ i : Fin dataS.length,
           d.entries[i.1]?
             = some (((i.1 : Nat) : Int) + k,
                 standardItemCell amt (dataS.get i)))
      ∧ (let d := (CollectionSoulboundBase.build_batch_mint_body
          dataB k amt qid).dictArg
         d.key_size = 64
           ∧ d.entries.length = dataB.length
           ∧ d.entries.map Prod.fst
               = (List.range dataB.length).map
                   (fun i => ((i : Nat) : Int) + k)
           ∧ ∀ i : Fin dataB.length,
               d.entries[i.1]?
                 = some (((i.1 : Nat) : Int) + k,
                     soulboundItemCell amt (dataB.get i))) := by
  constructor
  · rw [standard_dict_eq dataS k amt qid]
    refine ⟨rfl, ?len, ?keys, ?items⟩
    case len => simp [List.enum_length]
    case keys => rw [List.map_map]; exact enum_keys_range dataS k
    case items => intro i; exact enum_map_getElem dataS _ i
  · rw [soulbound_dict_eq dataB k amt qid]
    refine ⟨rfl, ?len, ?keys, ?items⟩
    case len => simp [List.enum_length]
    case keys => rw [List.map_map]; exact enum_keys_range dataB k
    case items => intro i; exact enum_map_getElem dataB _ i

/-- Claim C8: `SweetCollectionSoulbound.build_batch_mint_body` fails on
every invocation by raising (`NotImplementedError`) and never returns
a cell. -/
theorem claim_C8 (data : List (NFTContent × Address × Option Address ×
      Option Int)) (from_index amount_per_one query_id : Int) :
    SweetCollectionSoulbound.build_batch_mint_body data from_index
        amount_per_one query_id = Except.error "NotImplementedError"
      ∧ ∀ c : Cell,
          SweetCollectionSoulbound.build_batch_mint_body data from_index
            amount_per_one query_id ≠ Except.ok c := by
  refine ⟨rfl, fun c h => ?_⟩
  simp [SweetCollectionSoulbound.build_batch_mint_body] at h
